import Mathlib

/-!
Verification of the session-orchestration core of gas-AutoLoginFetchApp:
cookie-jar modelling and persistence TTL, login-form extraction and
submission-target resolution, request-option merging, retry with backoff,
and constructor option resolution. Definitions are shallow embeddings of
the TypeScript class AutoLoginFetchApp; JavaScript objects appear as
association lists over String keys, JavaScript numbers as Int or Nat,
and the external HTTP transport, key-value cache, HTML parser and date
parser as explicit parameters.
-/

set_option maxRecDepth 8192

/-- Association-list lookup keyed by String, first entry wins.
Models JavaScript property access `obj[k]` on object literals. -/
def lookupKey {α : Type} (k : String) : List (String × α) → Option α
  | [] => none
  | p :: ps => if p.1 = k then some p.2 else lookupKey k ps

/-- Models the JavaScript object spread `{ ...a, ...b }`: keys of `a` in
order with values overridden by `b` where present, followed by the keys of
`b` that do not occur in `a`. -/
def jsSpread {α : Type} (a b : List (String × α)) : List (String × α) :=
  a.map (fun p =>
    match lookupKey p.1 b with
    | some v => (p.1, v)
    | none => p)
  ++ b.filter (fun q => (lookupKey q.1 a).isNone)

/-- Generic keyed upsert into a list: an element with the same key is
replaced in place, otherwise the new element is appended at the end.
Models replace-by-key insertion. -/
def upsertBy {α κ : Type} [DecidableEq κ] (key : α → κ) : List α → α → List α
  | [], a => [a]
  | x :: xs, a => if key x = key a then a :: xs else x :: upsertBy key xs a

/-- First element of `l` whose key is `k`. -/
def findBy {α κ : Type} [DecidableEq κ] (key : α → κ) (l : List α) (k : κ) : Option α :=
  l.find? (fun x => decide (key x = k))

/-! ## Request options (`fetch`, line `params = { ...params, ...this.requestOptions }`)

The merge of the caller-supplied per-call `params` with the configured
`requestOptions` of the client, exactly as the source spreads them. -/

/-- The options object sent to the transport by `fetch`: the source
computes `{ ...params, ...this.requestOptions }`. -/
def mergedFetchParams {α : Type} (params requestOptions : List (String × α)) :
    List (String × α) :=
  jsSpread params requestOptions

/-! ## Retry with exponential backoff

Shallow embedding of the retry loop in `AutoLoginFetchApp.fetch`
(`for (let i = 1; i <= this.maxRetryCount; i++) { ... }`): the transport
either returns a response, throws an error carrying `getResponseCode`
(then the loop sleeps `1000 * 2 ** i` ms and continues), or throws an
unstructured error (logged, loop continues without the backoff sleep).
After the loop a terminal error is thrown. -/

/-- One transport attempt outcome: a response, an error object exposing a
response code, or an unclassified error. -/
inductive FetchOutcome (α : Type) where
  | success (resp : α)
  | httpError (code : Nat)
  | otherError
deriving DecidableEq

/-- Observable trace of the retry loop: number of transport attempts made,
the backoff sleeps issued (in milliseconds, in order), and the final
result (`none` means the loop exhausted and the terminal error is thrown). -/
structure FetchTrace (α : Type) where
  attempts : Nat
  sleeps : List Nat
  result : Option α
deriving DecidableEq

/-- The retry loop body, indexed by the current attempt number `i` and the
remaining number of allowed attempts. -/
def fetchLoop {α : Type} (transport : Nat → FetchOutcome α) : Nat → Nat → FetchTrace α
  | _, 0 => ⟨0, [], none⟩
  | i, rem + 1 =>
    match transport i with
    | .success r => ⟨1, [], some r⟩
    | .httpError _ =>
      let t := fetchLoop transport (i + 1) rem
      ⟨t.attempts + 1, 1000 * 2 ^ i :: t.sleeps, t.result⟩
    | .otherError =>
      let t := fetchLoop transport (i + 1) rem
      ⟨t.attempts + 1, t.sleeps, t.result⟩

/-- `fetch` runs the loop with `i` from 1 up to `maxRetryCount` inclusive. -/
def fetchWithRetries {α : Type} (transport : Nat → FetchOutcome α) (maxRetryCount : Nat) :
    FetchTrace α :=
  fetchLoop transport 1 maxRetryCount

/-! ## Login flow (`retrieveCookies`)

The flow fetches the login page with cookie retrieval suppressed, scrapes
the form, and issues a POST whose payload is
`{ ...loginFormOptions, ...this.authOptions }` with
`followRedirects: false`, again with cookie retrieval suppressed. -/

/-- The POST request assembled by `retrieveCookies`. -/
structure LoginPost where
  method : String
  payload : List (String × String)
  followRedirects : Bool
deriving DecidableEq

/-- The credentials POST built from the scraped form fields and the
configured auth options. -/
def loginPostRequest (scraped authOptions : List (String × String)) : LoginPost :=
  { method := "post"
    payload := jsSpread scraped authOptions
    followRedirects := false }

/-- The two inner `fetch` calls of `retrieveCookies`, in order: target URL,
optional request options, and the `shouldRetrieveCookie` flag passed. -/
def loginFlowCalls (loginUrl : String) (scraped authOptions : List (String × String)) :
    List (String × Option LoginPost × Bool) :=
  [(loginUrl, none, false),
   (loginUrl, some (loginPostRequest scraped authOptions), false)]

/-! ## URL resolution for the form action

Modelled from the spec: the revision of `AutoLoginFetchApp` that resolves
the login form action attribute against the login URL is not part of the
provided sources (only its tests are, expecting the POST to go to the
resolved action such as `https://localhost/login-request`); the resolver
below follows the words of the specification (section 4.3). -/

/-- Splits a URL character list at the `://` separator, returning the
prefix up to and including `://` and the remainder. -/
def schemeSplit : List Char → Option (List Char × List Char)
  | [] => none
  | ':' :: '/' :: '/' :: rest => some ([':', '/', '/'], rest)
  | c :: cs =>
    match schemeSplit cs with
    | none => none
    | some (pre, rest) => some (c :: pre, rest)

/-- The part of the URL after the scheme separator (the whole string when
no separator is present). -/
def afterScheme (l : List Char) : List Char :=
  match schemeSplit l with
  | none => l
  | some (_, rest) => rest

/-- Modelled from the spec: `origin` is the scheme and authority
(`scheme://host[:port]`) of the URL. -/
def origin (u : String) : String :=
  match schemeSplit u.data with
  | none => String.mk (u.data.takeWhile (fun c => c ≠ '/'))
  | some (pre, rest) => String.mk (pre ++ rest.takeWhile (fun c => c ≠ '/'))

/-- Drops the query and fragment of a URL. -/
def stripQueryFrag (l : List Char) : List Char :=
  l.takeWhile (fun c => c ≠ '?' && c ≠ '#')

/-- Modelled from the spec: `directoryOf` strips the query/fragment and
everything after the final `/`, preserving the trailing `/`. -/
def directoryOf (u : String) : String :=
  String.mk (((stripQueryFrag u.data).reverse.dropWhile (fun c => c ≠ '/')).reverse)

/-- Whether the action attribute begins with a slash. -/
def startsWithSlash (s : String) : Bool :=
  match s.data with
  | [] => false
  | c :: _ => c = '/'

/-- Modelled from the spec: `resolve(loginUrl, actionAttribute)` with three
ordered cases — absent or empty action keeps the login URL, a leading `/`
is appended to the origin, anything else to the directory. -/
def resolve (loginUrl : String) (action : Option String) : String :=
  match action with
  | none => loginUrl
  | some a =>
    if a = "" then loginUrl
    else if startsWithSlash a then origin loginUrl ++ a
    else directoryOf loginUrl ++ a

/-- The URL the credentials POST of the login flow is issued to. -/
def loginPostUrl (loginUrl : String) (action : Option String) : String :=
  resolve loginUrl action

/-! ## Constructor option resolution

`constructor(loginUrl, authOptions, customOptions?)` assigns the supplied
partial options over the defaults (`Object.assign(this, customOptions)`)
and then forces `this.reusesExpiredCookies ||= this.storesExpiredCookies`.
All option fields are declared `readonly` and never reassigned, so the
resolved configuration is an immutable value. The `logger` and
`requestOptions` fields do not interact with this resolution and are
carried by other definitions in this file. -/

/-- The caller-supplied `Partial<CustomOptions>`: each recognized option is
either absent or given. -/
structure CustomOpts where
  maxRetryCount : Option Int := none
  cacheExpiration : Option Int := none
  leastIntervalMills : Option Int := none
  reusesExpiredCookies : Option Bool := none
  storesExpiredCookies : Option Bool := none
  loginFormInput : Option String := none
deriving DecidableEq

/-- The effective configuration of one client instance. -/
structure Config where
  maxRetryCount : Int
  cacheExpiration : Int
  leastIntervalMills : Int
  reusesExpiredCookies : Bool
  storesExpiredCookies : Bool
  loginFormInput : String
deriving DecidableEq

/-- Option resolution of the constructor: defaults, overwritten by the
supplied options when present, then
`reusesExpiredCookies ||= storesExpiredCookies` (only when a
`customOptions` argument was supplied, as in the source). -/
def resolveConfig (customOptions : Option CustomOpts) : Config :=
  match customOptions with
  | none =>
    { maxRetryCount := 5
      cacheExpiration := 21600
      leastIntervalMills := 5000
      reusesExpiredCookies := false
      storesExpiredCookies := false
      loginFormInput := "form input" }
  | some o =>
    let assigned : Config :=
      { maxRetryCount := o.maxRetryCount.getD 5
        cacheExpiration := o.cacheExpiration.getD 21600
        leastIntervalMills := o.leastIntervalMills.getD 5000
        reusesExpiredCookies := o.reusesExpiredCookies.getD false
        storesExpiredCookies := o.storesExpiredCookies.getD false
        loginFormInput := o.loginFormInput.getD "form input" }
    { assigned with
        reusesExpiredCookies := assigned.reusesExpiredCookies || assigned.storesExpiredCookies }

/-! ## Cookie jar

Modelled from the spec: the cookie-jar revision of `AutoLoginFetchApp`
(the one built on a serializable jar of cookies keyed by domain, path and
name) is not part of the provided sources; only its tests are, which
deserialize the persisted jar, expect the `Cookie` header to join
`name=value` pairs with `; `, and expect the cache TTL to equal the
smallest remaining cookie lifetime. The definitions below follow the
words of the specification (sections 3 and 4.1). -/

/-- A cookie as stored in the jar. `expires` is an absolute timestamp in
seconds, `maxAge` a relative lifetime in seconds; both optional. -/
structure Cookie where
  name : String
  value : String
  domain : String
  path : String
  hostOnly : Bool
  secure : Bool
  expires : Option Int := none
  maxAge : Option Int := none
deriving DecidableEq

/-- Modelled from the spec: the remaining lifetime of one cookie at time
`now` — `expires` converted to seconds-from-now when present, intersected
with `maxAge` when present by taking the smaller; `none` when the cookie
carries no explicit lifetime. -/
def remainingLife (now : Int) (c : Cookie) : Option Int :=
  match c.expires, c.maxAge with
  | none, none => none
  | some e, none => some (e - now)
  | none, some m => some m
  | some e, some m => some (min (e - now) m)

/-- Minimum of a list of integers, `none` on the empty list. -/
def minList? : List Int → Option Int
  | [] => none
  | x :: xs =>
    some (match minList? xs with
      | none => x
      | some m => min x m)

/-- The explicit lifetimes carried by the cookies of a jar. -/
def cookieLifetimes (now : Int) (jar : List Cookie) : List Int :=
  jar.filterMap (remainingLife now)

/-- Modelled from the spec: `minimumRemainingTtl` — the minimum remaining
lifetime over the cookies of the jar, capped at `cap`
(`cacheTtlCapSeconds`, default 21600); the cap itself when no cookie
carries an explicit lifetime. -/
def minimumRemainingTtl (now cap : Int) (jar : List Cookie) : Int :=
  match minList? (cookieLifetimes now jar) with
  | none => cap
  | some m => min m cap

/-- The conceptual jar key of a cookie: domain, path and name. -/
def cookieKey (c : Cookie) : String × String × String :=
  (c.domain, c.path, c.name)

/-- Modelled from the spec: upsert of one received cookie into the jar —
a later Set-Cookie for the same (domain, path, name) key replaces the
earlier cookie, otherwise the cookie is appended. -/
def upsertCookie (jar : List Cookie) (c : Cookie) : List Cookie :=
  upsertBy cookieKey jar c

/-- Folding all Set-Cookie values of one response into the jar, in order. -/
def foldSetCookies (jar news : List Cookie) : List Cookie :=
  news.foldl upsertCookie jar

/-- The jar cookie stored under key `k`, if any. -/
def findCookieByKey (jar : List Cookie) (k : String × String × String) : Option Cookie :=
  findBy cookieKey jar k

/-- The last cookie of a response carrying key `k`, if any. -/
def lastWithKey (news : List Cookie) (k : String × String × String) : Option Cookie :=
  findBy cookieKey news.reverse k

/-- Modelled from the spec: the `Cookie` request header value — the
`name=value` pairs of the given cookies joined with `; ` (no cookie
attributes are serialized). -/
def serializeCookies (cs : List Cookie) : String :=
  String.intercalate "; " (cs.map (fun c => c.name ++ "=" ++ c.value))

/-- The host (authority) component of a URL. -/
def urlHost (u : String) : String :=
  String.mk ((afterScheme u.data).takeWhile (fun c => c ≠ '/'))

/-- The path component of a URL (query and fragment stripped, `/` when
empty). -/
def urlPath (u : String) : String :=
  match stripQueryFrag ((afterScheme u.data).dropWhile (fun c => c ≠ '/')) with
  | [] => "/"
  | l => String.mk l

/-- Modelled from the spec: domain scoping — exact match for a host-only
cookie, exact or dot-suffix match otherwise. -/
def domainMatches (c : Cookie) (host : String) : Bool :=
  if c.hostOnly then host = c.domain
  else host = c.domain || ("." ++ c.domain).data.isSuffixOf host.data

/-- Modelled from the spec: the cookie path is a prefix of the request
path. -/
def pathMatches (c : Cookie) (path : String) : Bool :=
  c.path.data.isPrefixOf path.data

/-- A cookie is unexpired when it carries no lifetime or a positive
remaining lifetime. -/
def notExpired (now : Int) (c : Cookie) : Bool :=
  match remainingLife now c with
  | none => true
  | some l => 0 < l

/-- Modelled from the spec: whether a jar cookie is attached to a request
for the given host and path, honouring the retain-expired configuration. -/
def cookieMatches (reusesExpiredCookies : Bool) (now : Int) (host path : String)
    (c : Cookie) : Bool :=
  domainMatches c host && pathMatches c path && (reusesExpiredCookies || notExpired now c)

/-- Modelled from the spec: `cookiesFor(url)` — the jar cookies whose
domain and path match the URL. -/
def cookiesFor (reusesExpiredCookies : Bool) (now : Int) (url : String)
    (jar : List Cookie) : List Cookie :=
  jar.filter (cookieMatches reusesExpiredCookies now (urlHost url) (urlPath url))

/-- Header assignment `params.headers[k] = v` on an association list. -/
def upsertHeader (headers : List (String × String)) (k v : String) :
    List (String × String) :=
  upsertBy Prod.fst headers (k, v)

/-- The request headers sent by `fetch`: a `Cookie` header serializing the
matching jar cookies is attached only when at least one matching cookie
exists. -/
def requestHeaders (reusesExpiredCookies : Bool) (now : Int) (url : String)
    (jar : List Cookie) (headers : List (String × String)) : List (String × String) :=
  match cookiesFor reusesExpiredCookies now url jar with
  | [] => headers
  | cs => upsertHeader headers "Cookie" (serializeCookies cs)

/-- One `put` call on the external key-value cache: key, stored jar and
TTL in seconds. -/
structure CachePut where
  key : String
  stored : List Cookie
  ttl : Int
deriving DecidableEq

/-- Modelled from the spec: persisting the jar after a response. When the
response carried at least one Set-Cookie value the new cookies are folded
into the jar and the jar is written to the cache with
TTL = `minimumRemainingTtl`; otherwise no write happens. -/
def persistJar (now cap : Int) (cacheKey : String) (jar news : List Cookie) :
    Option CachePut :=
  match news with
  | [] => none
  | _ =>
    some { key := cacheKey
           stored := foldSetCookies jar news
           ttl := minimumRemainingTtl now cap (foldSetCookies jar news) }

/-! ## `saveCookies` and the login-flow failure (source embedding)

`saveCookies(headers)` of the source: when `headers['Set-Cookie']` is
truthy the values are parsed, expired ones removed unless
`storesExpiredCookies`, the result cached with TTL `cacheExpiration`, and
`true` returned; otherwise `false`. `retrieveCookies` throws when
`saveCookies` returns `false` for the login POST response headers. The
external `cookie.parse` and the date comparison
`new Date(it.Expires) < new Date()` are opaque parameters. -/

/-- The JavaScript value of `headers['Set-Cookie']`: absent, a single
string, or an array of strings. -/
abbrev SetCookieHeader : Type := Option (Sum String (List String))

/-- JavaScript truthiness of the Set-Cookie header value: `undefined` and
the empty string are falsy, every array (even empty) is truthy. -/
def setCookieTruthy : SetCookieHeader → Bool
  | none => false
  | some (.inl s) => s ≠ ""
  | some (.inr _) => true

/-- The list of Set-Cookie values wrapped by the header. -/
def setCookieValues : SetCookieHeader → List String
  | none => []
  | some (.inl s) => [s]
  | some (.inr l) => l

/-- A parsed cookie in the source representation: the attribute map
produced by `cookie.parse`. -/
abbrev CookieMap : Type := List (String × String)

/-- `it.Expires && new Date(it.Expires) < new Date()` for one parsed
cookie, with the date comparison `expiredAt` opaque. -/
def cookieMapExpired (expiredAt : String → Bool) (m : CookieMap) : Bool :=
  match lookupKey "Expires" m with
  | none => false
  | some s => s ≠ "" && expiredAt s

/-- `saveCookies` of the source: `none` models returning `false`, `some`
returns the new in-memory cookie list together with the cache write. -/
def saveCookies (parse : String → CookieMap) (expiredAt : String → Bool)
    (storesExpiredCookies : Bool) (cacheExpiration : Int) (cookiesKey : String)
    (hdr : SetCookieHeader) : Option (List CookieMap × String × Int) :=
  if setCookieTruthy hdr then
    let parsed := (setCookieValues hdr).map parse
    let kept :=
      if storesExpiredCookies then parsed
      else parsed.filter (fun m => !cookieMapExpired expiredAt m)
    some (kept, cookiesKey, cacheExpiration)
  else none

/-- Whether `retrieveCookies` throws `Failed to retrive its Cookie.` for
the given login POST response header. -/
def retrieveCookiesRaises (parse : String → CookieMap) (expiredAt : String → Bool)
    (storesExpiredCookies : Bool) (cacheExpiration : Int) (cookiesKey : String)
    (hdr : SetCookieHeader) : Bool :=
  (saveCookies parse expiredAt storesExpiredCookies cacheExpiration cookiesKey hdr).isNone

/-! ## Login-form extraction (`parseLoginForm`)

Embedding of the revision whose claim sources cite it: cheerio selections
are modelled over the flattened document — every element paired with its
ancestor chain (nearest first). The source computes

  `submitCount = $('form input button[type="submit"]').length`
  `buttonCount = $('form input button[type="button"]').length`

and iterates `$('form input')`, skipping an element whose type is submit
or button when `submitCount + buttonCount !== 1` and its name does not
contain `login` case-insensitively. -/

/-- An element of the parsed document: tag name and attributes. -/
structure DomNode where
  tag : String
  attrs : List (String × String)
deriving DecidableEq

/-- An element together with its ancestor chain, nearest ancestor first.
The parsed document is the list of these in document order. -/
structure PathedNode where
  ancestors : List DomNode
  node : DomNode
deriving DecidableEq

/-- `$(element).attr(k)`. -/
def nodeAttr (n : DomNode) (k : String) : Option String :=
  (n.attrs.find? (fun p => decide (p.1 = k))).map (fun p => p.2)

/-- CSS descendant matching along an ancestor chain: the listed tags must
appear in the chain in order (nearest first). -/
def hasChainTags : List DomNode → List String → Bool
  | _, [] => true
  | [], _ :: _ => false
  | a :: as, t :: ts =>
    if a.tag = t then hasChainTags as ts else hasChainTags as (t :: ts)

/-- ASCII lowercasing, as `String.prototype.toLowerCase` acts on ASCII. -/
def asciiLower (c : Char) : Char :=
  if 'A' ≤ c ∧ c ≤ 'Z' then Char.ofNat (c.toNat + 32) else c

/-- Substring containment on character lists. -/
def containsSub (needle : List Char) : List Char → Bool
  | [] => needle.isPrefixOf []
  | c :: t => needle.isPrefixOf (c :: t) || containsSub needle t

/-- `name.toLowerCase().includes('login')`. -/
def nameHasLogin (name : String) : Bool :=
  containsSub "login".data (name.data.map asciiLower)

/-- The selection `$('form input')`: input elements with a form ancestor,
in document order. -/
def formInputs (doc : List PathedNode) : List DomNode :=
  (doc.filter (fun p => p.node.tag = "input" && hasChainTags p.ancestors ["form"])).map
    (fun p => p.node)

/-- The selection `$('form input button[type="<ty>"]').length`: button
elements of the given type with an input ancestor inside a form. -/
def formInputButtonCount (doc : List PathedNode) (ty : String) : Nat :=
  (doc.filter (fun p =>
    p.node.tag = "button" && nodeAttr p.node "type" == some ty &&
      hasChainTags p.ancestors ["input", "form"])).length

/-- The number of submit/button input controls inside the form — the
reading of "sole submit/button control" in the claim and the spec. -/
def submitOrButtonControls (doc : List PathedNode) : Nat :=
  ((formInputs doc).filter (fun n =>
    nodeAttr n "type" == some "submit" || nodeAttr n "type" == some "button")).length

/-- `parseLoginForm` of the source revision with the submit/button
heuristic. -/
def parseLoginForm (doc : List PathedNode) : List (String × Option String) :=
  let submitCount := formInputButtonCount doc "submit"
  let buttonCount := formInputButtonCount doc "button"
  (formInputs doc).foldl
    (fun formData e =>
      match nodeAttr e "name" with
      | none => formData
      | some name =>
        if name = "" then formData
        else
          let ty := nodeAttr e "type"
          if (ty == some "submit" || ty == some "button") &&
              (submitCount + buttonCount != 1) && !nameHasLogin name then
            formData
          else
            upsertBy Prod.fst formData (name, nodeAttr e "value"))
    []

/-- A login form with one text input and one sole submit control named
`btnOk`, flattened in document order. -/
def c9Doc : List PathedNode :=
  [⟨[], ⟨"form", []⟩⟩,
   ⟨[⟨"form", []⟩], ⟨"input", [("type", "text"), ("name", "username"), ("value", "u1")]⟩⟩,
   ⟨[⟨"form", []⟩], ⟨"input", [("type", "submit"), ("name", "btnOk"), ("value", "OK")]⟩⟩]

/-! ## Concrete inputs used by the witnesses -/

/-- One response cookie carrying both an `Expires` 7200 seconds ahead and
a smaller `Max-Age` of 3600 seconds. -/
def c1News : List Cookie :=
  [⟨"sid", "x", "host", "/", true, false, some 7200, some 3600⟩]

/-- A pre-existing jar cookie whose key no response cookie carries. -/
def c5Old : Cookie := ⟨"old", "1", "host", "/", true, false, none, none⟩

/-- Two response cookies sharing the key (host, /, sid), earlier value. -/
def c5First : Cookie := ⟨"sid", "a", "host", "/", true, false, none, none⟩

/-- Two response cookies sharing the key (host, /, sid), later value. -/
def c5Second : Cookie := ⟨"sid", "b", "host", "/", true, false, none, none⟩

/-- A jar with one session cookie scoped to host `host`, path `/`. -/
def c4Jar : List Cookie := [⟨"sid", "xxxxx", "host", "/", true, false, none, none⟩]

/-! # Theorems -/

theorem lookupKey_append {α : Type} (k : String) (l₁ l₂ : List (String × α)) :
    lookupKey k (l₁ ++ l₂) = (lookupKey k l₁).orElse (fun _ => lookupKey k l₂) := by
  induction l₁ with
  | nil => simp [lookupKey, Option.orElse]
  | cons p ps ih =>
    by_cases h : p.1 = k
    · simp [lookupKey, h, Option.orElse]
    · simp [lookupKey, h, ih]

theorem lookupKey_map_override {α : Type} (k : String) (a b : List (String × α)) :
    lookupKey k (a.map (fun p =>
        match lookupKey p.1 b with
        | some v => (p.1, v)
        | none => p)) =
      match lookupKey k a with
      | none => none
      | some v =>
        match lookupKey k b with
        | some w => some w
        | none => some v := by
  induction a with
  | nil => simp [lookupKey]
  | cons p ps ih =>
    by_cases h : p.1 = k
    · subst h
      cases hb : lookupKey p.1 b <;> simp [lookupKey, hb]
    · cases hpb : lookupKey p.1 b <;> simp [lookupKey, hpb, h, ih]

theorem lookupKey_filter_outside {α : Type} (k : String) (a b : List (String × α)) :
    lookupKey k (b.filter (fun q => (lookupKey q.1 a).isNone)) =
      match lookupKey k a with
      | none => lookupKey k b
      | some _ => none := by
  induction b with
  | nil => cases ha : lookupKey k a <;> simp [lookupKey, ha]
  | cons q qs ih =>
    by_cases hq : q.1 = k
    · subst hq
      cases ha : lookupKey q.1 a with
      | none => simp [List.filter_cons, ha, lookupKey, ih]
      | some v => simp [List.filter_cons, ha, lookupKey, ih]
    · cases ha : lookupKey q.1 a with
      | none => simp [List.filter_cons, ha, lookupKey, hq, ih]
      | some v => simp [List.filter_cons, ha, lookupKey, hq, ih]

/-- The spread `{ ...a, ...b }` looks up to the value from `b` when the key
occurs there and to the value from `a` otherwise. -/
theorem lookupKey_jsSpread {α : Type} (k : String) (a b : List (String × α)) :
    lookupKey k (jsSpread a b) = (lookupKey k b).orElse (fun _ => lookupKey k a) := by
  unfold jsSpread
  rw [lookupKey_append, lookupKey_map_override, lookupKey_filter_outside]
  cases ha : lookupKey k a <;> cases hb : lookupKey k b <;>
    simp [Option.orElse, ha, hb]

theorem range_pow_cons (i n : Nat) :
    (List.range (n + 1)).map (fun k => 1000 * 2 ^ (i + k)) =
      1000 * 2 ^ i :: (List.range n).map (fun k => 1000 * 2 ^ (i + 1 + k)) := by
  rw [List.range_succ_eq_map]
  simp only [List.map_cons, List.map_map, Nat.add_zero]
  congr 1
  apply List.map_congr_left
  intro k _
  simp only [Function.comp_apply, Nat.succ_eq_add_one]
  congr 2
  omega

theorem fetchLoop_allHttp {α : Type} (transport : Nat → FetchOutcome α) :
    ∀ rem i, (∀ j, i ≤ j → j < i + rem → ∃ c, transport j = .httpError c) →
      fetchLoop transport i rem =
        ⟨rem, (List.range rem).map (fun k => 1000 * 2 ^ (i + k)), none⟩ := by
  intro rem
  induction rem with
  | zero => intro i _; rfl
  | succ n ih =>
    intro i h
    obtain ⟨c, hc⟩ := h i (Nat.le_refl i) (by omega)
    have hrec := ih (i + 1) (fun j h1 h2 => h j (by omega) (by omega))
    simp only [fetchLoop, hc, hrec, range_pow_cons]

theorem fetchLoop_firstSuccess {α : Type} (transport : Nat → FetchOutcome α) (r : α)
    (i rem : Nat) (h : transport i = .success r) :
    fetchLoop transport i (rem + 1) = ⟨1, [], some r⟩ := by
  simp [fetchLoop, h]

theorem fetchLoop_firstSuccessAt {α : Type} (transport : Nat → FetchOutcome α) (r : α) :
    ∀ d len i, d < len →
      (∀ k, i ≤ k → k < i + d → ∃ c, transport k = .httpError c) →
      transport (i + d) = .success r →
      fetchLoop transport i len =
        ⟨d + 1, (List.range d).map (fun k => 1000 * 2 ^ (i + k)), some r⟩ := by
  intro d
  induction d with
  | zero =>
    intro len i hlen _ hsucc
    obtain ⟨n, rfl⟩ : ∃ n, len = n + 1 := ⟨len - 1, by omega⟩
    rw [Nat.add_zero] at hsucc
    exact fetchLoop_firstSuccess transport r i n hsucc
  | succ d ih =>
    intro len i hlen hfail hsucc
    obtain ⟨n, rfl⟩ : ∃ n, len = n + 1 := ⟨len - 1, by omega⟩
    obtain ⟨c, hc⟩ := hfail i (Nat.le_refl i) (by omega)
    have hsucc' : transport (i + 1 + d) = .success r := by
      have hi : i + 1 + d = i + (d + 1) := by omega
      rw [hi]
      exact hsucc
    have hrec := ih n (i + 1) (by omega)
      (fun k h1 h2 => hfail k (by omega) (by omega)) hsucc'
    simp only [fetchLoop, hc, hrec, range_pow_cons]

/-- C6: for a transport failing every attempt with a status-carrying error,
`fetch` performs exactly `maxRetryCount` transport attempts (loop index `i`
from 1 to `maxRetryCount` inclusive), sleeps `1000 * 2 ^ i` milliseconds
after the i-th such failure, and then fails; and on the first successful
attempt — at any index `j` within the loop, the earlier attempts having
failed with status-carrying errors — the response is returned immediately
with exactly `j` attempts, no further attempts and no backoff sleep beyond
those of the `j - 1` failures. -/
theorem c6_retry_backoff {α : Type} (transport : Nat → FetchOutcome α) (m : Nat) :
    ((∀ i, 1 ≤ i → i ≤ m → ∃ c, transport i = .httpError c) →
      (fetchWithRetries transport m).attempts = m ∧
      (fetchWithRetries transport m).result = none ∧
      (fetchWithRetries transport m).sleeps =
        (List.range m).map (fun k => 1000 * 2 ^ (1 + k)))
    ∧ (∀ j r, 1 ≤ j → j ≤ m →
        (∀ i, 1 ≤ i → i < j → ∃ c, transport i = .httpError c) →
        transport j = .success r →
        fetchWithRetries transport m =
          ⟨j, (List.range (j - 1)).map (fun k => 1000 * 2 ^ (1 + k)), some r⟩) := by
  constructor
  · intro h
    have := fetchLoop_allHttp transport m 1 (fun j h1 h2 => h j h1 (by omega))
    unfold fetchWithRetries
    rw [this]
    exact ⟨rfl, rfl, rfl⟩
  · intro j r hj1 hjm hfail hsucc
    obtain ⟨d, rfl⟩ : ∃ d, j = 1 + d := ⟨j - 1, by omega⟩
    have hsucc' : transport (1 + d) = .success r := hsucc
    have := fetchLoop_firstSuccessAt transport r d m 1 (by omega)
      (fun k h1 h2 => hfail k h1 h2) hsucc'
    unfold fetchWithRetries
    rw [this]
    have h1 : 1 + d - 1 = d := by omega
    have h2 : d + 1 = 1 + d := by omega
    rw [h1, h2]

/-- C6 witness: with `maxRetryCount = 2` and a transport that always throws
a status-carrying error, exactly 2 attempts occur, backoff sleeps are
2000 ms then 4000 ms, and the call fails; with a transport that fails once
with a status-carrying error and succeeds on attempt 2, the response is
returned after exactly 2 of the 5 allowed attempts, with the single
backoff sleep of the first failure. -/
theorem c6_retry_backoff_witness :
    ((fetchWithRetries (fun _ => FetchOutcome.httpError (α := Nat) 429) 2).attempts = 2 ∧
      (fetchWithRetries (fun _ => FetchOutcome.httpError (α := Nat) 429) 2).result = none ∧
      (fetchWithRetries (fun _ => FetchOutcome.httpError (α := Nat) 429) 2).sleeps =
        (List.range 2).map (fun k => 1000 * 2 ^ (1 + k))) ∧
    fetchWithRetries
        (fun i => if i ≤ 1 then FetchOutcome.httpError 500
          else FetchOutcome.success (200 : Nat)) 5 =
      ⟨2, (List.range (2 - 1)).map (fun k => 1000 * 2 ^ (1 + k)), some 200⟩ :=
  ⟨(c6_retry_backoff (fun _ => FetchOutcome.httpError 429) 2).1
      (fun i _ _ => ⟨429, rfl⟩),
   (c6_retry_backoff
      (fun i => if i ≤ 1 then FetchOutcome.httpError 500
        else FetchOutcome.success (200 : Nat)) 5).2 2 200 (by omega) (by omega)
      (fun i h1 h2 => ⟨500, by
        have hi : i = 1 := by omega
        subst hi
        rfl⟩)
      rfl⟩

/-- C2: the claim states caller-supplied request options take precedence
over the configured `requestOptions` overrides, as the doc comment on
`CustomOptions.requestOptions` promises; but the source computes
`{ ...params, ...this.requestOptions }`, so on a colliding key the
configured override replaces the caller value. Evaluated at the failing
input: caller `followRedirects: false` against configured
`followRedirects: true` yields `true`. -/
theorem c2_overrides_beat_caller :
    lookupKey "followRedirects"
        (mergedFetchParams [("followRedirects", false)] [("followRedirects", true)]) =
      some true ∧
    lookupKey "followRedirects"
        (mergedFetchParams [("followRedirects", false)] [("followRedirects", true)]) ≠
      some false := by
  constructor
  · rfl
  · intro h
    simp [mergedFetchParams, jsSpread, lookupKey] at h

/-- C7: the login POST payload merges the scraped form fields with the
configured auth options so that the auth options win on every colliding
key; the POST carries `followRedirects: false` and method `post`; and both
inner fetch calls of the login flow pass `shouldRetrieveCookie = false`,
so the login flow never recurses. -/
theorem c7_login_flow (loginUrl : String) (scraped authOptions : List (String × String)) :
    (∀ call ∈ loginFlowCalls loginUrl scraped authOptions, call.2.2 = false)
    ∧ (loginPostRequest scraped authOptions).followRedirects = false
    ∧ (loginPostRequest scraped authOptions).method = "post"
    ∧ ∀ k, lookupKey k (loginPostRequest scraped authOptions).payload =
        (lookupKey k authOptions).orElse (fun _ => lookupKey k scraped) := by
  refine ⟨?_, rfl, rfl, ?_⟩
  · intro call hc
    simp only [loginFlowCalls, List.mem_cons, List.mem_singleton] at hc
    rcases hc with h | h | h
    · rw [h]
    · rw [h]
    · cases h
  · intro k
    exact lookupKey_jsSpread k scraped authOptions

/-- C7 witness: at a concrete login flow both inner calls are suppressed
and the auth value wins over the scraped value for the shared key. -/
theorem c7_login_flow_witness :
    (("https://host/login", (none : Option LoginPost), false) ∈
        loginFlowCalls "https://host/login" [("user", "scraped")] [("user", "auth")] →
      (("https://host/login", (none : Option LoginPost), false)).2.2 = false) ∧
    lookupKey "user"
        (loginPostRequest [("user", "scraped")] [("user", "auth")]).payload =
      (lookupKey "user" [("user", "auth")]).orElse
        (fun _ => lookupKey "user" [("user", "scraped")]) :=
  ⟨fun h => (c7_login_flow "https://host/login" [("user", "scraped")] [("user", "auth")]).1 _ h,
   (c7_login_flow "https://host/login" [("user", "scraped")] [("user", "auth")]).2.2.2 "user"⟩

/-- C10: whenever the supplied `storesExpiredCookies` option is `true`, the
effective `reusesExpiredCookies` of the constructed instance is forced to
`true`, regardless of the caller-supplied `reusesExpiredCookies` value;
both fields are `readonly` and fixed after construction. -/
theorem c10_stores_forces_reuses (o : CustomOpts)
    (h : o.storesExpiredCookies = some true) :
    (resolveConfig (some o)).reusesExpiredCookies = true ∧
    (resolveConfig (some o)).storesExpiredCookies = true := by
  simp [resolveConfig, h]

/-- C10 witness: with `storesExpiredCookies: true` and an explicit
`reusesExpiredCookies: false`, the effective `reusesExpiredCookies` is
still `true`. -/
theorem c10_stores_forces_reuses_witness :
    (resolveConfig (some
        { reusesExpiredCookies := some false
          storesExpiredCookies := some true })).reusesExpiredCookies = true ∧
    (resolveConfig (some
        { reusesExpiredCookies := some false
          storesExpiredCookies := some true })).storesExpiredCookies = true :=
  c10_stores_forces_reuses
    { reusesExpiredCookies := some false, storesExpiredCookies := some true } rfl

/-- C3: the credentials POST of the login flow is issued to the URL
obtained by resolving the extracted form action against the login URL
with exactly three ordered cases — absent or empty action keeps the login
URL; a leading `/` appends the action to the origin of the login URL;
anything else appends it to the directory of the login URL — together
with the concrete vectors of the specification. -/
theorem c3_action_resolution (loginUrl : String) (a : Option String) :
    ((a = none ∨ a = some "") → loginPostUrl loginUrl a = loginUrl)
    ∧ (∀ s, a = some s → s ≠ "" → startsWithSlash s = true →
        loginPostUrl loginUrl a = origin loginUrl ++ s)
    ∧ (∀ s, a = some s → s ≠ "" → startsWithSlash s = false →
        loginPostUrl loginUrl a = directoryOf loginUrl ++ s)
    ∧ loginPostUrl "https://host/login" (some "/do-login") = "https://host/do-login"
    ∧ loginPostUrl "https://host/path/login" (some "do-login") =
        "https://host/path/do-login"
    ∧ loginPostUrl "https://host/login" none = "https://host/login" := by
  refine ⟨?_, ?_, ?_, by decide, by decide, rfl⟩
  · rintro (rfl | rfl) <;> simp [loginPostUrl, resolve]
  · rintro s rfl hne hsl
    simp [loginPostUrl, resolve, hne, hsl]
  · rintro s rfl hne hsl
    simp [loginPostUrl, resolve, hne, hsl]

/-- C3 witness: at the spec vector, the second resolution case applies and
produces the origin-prefixed target. -/
theorem c3_action_resolution_witness :
    loginPostUrl "https://host/login" (some "/do-login") =
      origin "https://host/login" ++ "/do-login" :=
  (c3_action_resolution "https://host/login" (some "/do-login")).2.1 "/do-login" rfl
    (by decide) (by decide)

/-- C9: the claim says a submit/button input is included exactly when it is
the sole submit/button control of the form or its name contains `login`
case-insensitively, matching the comment in the source; but the counting
selectors `form input button[type=...]` require a `button` element nested
inside an `input`, which a parsed HTML document never contains, so both
counts are always 0 and the sole-control exception never fires: in a form
whose only submit/button control is the sole submit input `btnOk`, the
extracted field map still omits it. -/
theorem c9_sole_submit_dropped :
    submitOrButtonControls c9Doc = 1 ∧
    formInputButtonCount c9Doc "submit" + formInputButtonCount c9Doc "button" = 0 ∧
    parseLoginForm c9Doc = [("username", some "u1")] ∧
    lookupKey "btnOk" (parseLoginForm c9Doc) = none := by
  refine ⟨rfl, rfl, by decide, rfl⟩

theorem findBy_append {α κ : Type} [DecidableEq κ] (key : α → κ)
    (l₁ l₂ : List α) (k : κ) :
    findBy key (l₁ ++ l₂) k = (findBy key l₁ k).orElse (fun _ => findBy key l₂ k) := by
  induction l₁ with
  | nil => simp [findBy, Option.orElse]
  | cons x xs ih =>
    by_cases hx : key x = k
    · simp [findBy, List.find?_cons, hx, Option.orElse]
    · simpa [findBy, List.find?_cons, hx, Option.orElse] using ih

theorem findBy_upsertBy_self {α κ : Type} [DecidableEq κ] (key : α → κ)
    (l : List α) (a : α) :
    findBy key (upsertBy key l a) (key a) = some a := by
  induction l with
  | nil => simp [upsertBy, findBy, List.find?]
  | cons x xs ih =>
    by_cases hx : key x = key a
    · simp [upsertBy, findBy, List.find?, hx]
    · simpa [upsertBy, findBy, List.find?, hx] using ih

theorem findBy_upsertBy_other {α κ : Type} [DecidableEq κ] (key : α → κ)
    (l : List α) (a : α) (k : κ) (hk : k ≠ key a) :
    findBy key (upsertBy key l a) k = findBy key l k := by
  induction l with
  | nil => simp [upsertBy, findBy, List.find?, Ne.symm hk]
  | cons x xs ih =>
    by_cases hx : key x = key a
    · have hxk : ¬ key x = k := fun h => hk (h ▸ hx ▸ rfl)
      simp [upsertBy, findBy, List.find?, hx, hxk, Ne.symm hk]
    · by_cases hxk : key x = k
      · simp [upsertBy, findBy, List.find?, hx, hxk, hk]
      · simpa [upsertBy, findBy, List.find?, hx, hxk] using ih

theorem mem_upsertBy_of_key_ne {α κ : Type} [DecidableEq κ] (key : α → κ)
    (l : List α) (a c : α) (hc : c ∈ l) (hne : key a ≠ key c) :
    c ∈ upsertBy key l a := by
  induction l with
  | nil => cases hc
  | cons x xs ih =>
    rcases List.mem_cons.mp hc with h | h
    · subst h
      by_cases hx : key c = key a
      · exact absurd (hx ▸ rfl) (Ne.symm hne)
      · simp [upsertBy, hx]
    · by_cases hx : key x = key a
      · simp [upsertBy, hx, h]
      · simp [upsertBy, hx, ih h]

theorem findCookie_foldSetCookies (jar news : List Cookie) (k : String × String × String) :
    findCookieByKey (foldSetCookies jar news) k =
      match lastWithKey news k with
      | some c => some c
      | none => findCookieByKey jar k := by
  induction news generalizing jar with
  | nil => simp [foldSetCookies, lastWithKey, findBy, List.find?, findCookieByKey]
  | cons n ns ih =>
    have hfold : foldSetCookies jar (n :: ns) = foldSetCookies (upsertCookie jar n) ns := rfl
    have hlast : lastWithKey (n :: ns) k =
        (findBy cookieKey ns.reverse k).orElse (fun _ => findBy cookieKey [n] k) := by
      unfold lastWithKey
      rw [List.reverse_cons, findBy_append]
    rw [hfold, ih, hlast]
    cases hns : findBy cookieKey ns.reverse k with
    | some c => simp [lastWithKey, hns, Option.orElse]
    | none =>
      by_cases hn : cookieKey n = k
      · subst hn
        have h1 : findBy cookieKey [n] (cookieKey n) = some n := by
          simp [findBy, List.find?]
        simp only [lastWithKey, hns, Option.orElse, h1, findCookieByKey, upsertCookie]
        exact findBy_upsertBy_self cookieKey jar n
      · have h1 : findBy cookieKey [n] k = none := by
          simp [findBy, List.find?, hn]
        simp only [lastWithKey, hns, Option.orElse, h1, findCookieByKey, upsertCookie]
        exact findBy_upsertBy_other cookieKey jar n k (fun h => hn h.symm)

theorem mem_foldSetCookies_of_key_notin (jar news : List Cookie) (c : Cookie)
    (hc : c ∈ jar) (h : ∀ n ∈ news, cookieKey n ≠ cookieKey c) :
    c ∈ foldSetCookies jar news := by
  induction news generalizing jar with
  | nil => exact hc
  | cons n ns ih =>
    exact ih (upsertCookie jar n)
      (mem_upsertBy_of_key_ne cookieKey jar n c hc (h n (List.mem_cons_self n ns)))
      (fun m hm => h m (List.mem_cons_of_mem n hm))

/-- C5: folding the Set-Cookie values of a response into the jar is a
per-key upsert — the last response cookie carrying a key becomes the jar
cookie under that key, a key that appears in no response cookie keeps the
jar cookie it had before, and every jar cookie whose key appears in no
response cookie remains in the jar unchanged. -/
theorem c5_jar_upsert (jar news : List Cookie) (k : String × String × String) :
    (∀ c, lastWithKey news k = some c →
      findCookieByKey (foldSetCookies jar news) k = some c)
    ∧ (lastWithKey news k = none →
      findCookieByKey (foldSetCookies jar news) k = findCookieByKey jar k)
    ∧ (∀ c ∈ jar, (∀ n ∈ news, cookieKey n ≠ cookieKey c) →
      c ∈ foldSetCookies jar news) := by
  refine ⟨?_, ?_, fun c hc h => mem_foldSetCookies_of_key_notin jar news c hc h⟩
  · intro c hlast
    rw [findCookie_foldSetCookies, hlast]
  · intro hlast
    rw [findCookie_foldSetCookies, hlast]

/-- C5 witness: with a response carrying two cookies for key
(host, /, sid), the jar ends up with the later one under that key while
the unrelated old jar cookie survives. -/
theorem c5_jar_upsert_witness :
    findCookieByKey (foldSetCookies [c5Old] [c5First, c5Second]) ("host", "/", "sid") =
      some c5Second ∧
    c5Old ∈ foldSetCookies [c5Old] [c5First, c5Second] :=
  ⟨(c5_jar_upsert [c5Old] [c5First, c5Second] ("host", "/", "sid")).1 c5Second (by decide),
   (c5_jar_upsert [c5Old] [c5First, c5Second] ("host", "/", "sid")).2.2 c5Old
     (by decide) (by decide)⟩

/-- C4: whenever at least one jar cookie matches the URL, the outgoing
request carries a `Cookie` header equal to the matching cookies'
`name=value` pairs joined with `; ` — for two cookies
`name1=value1; name2=value2`, with no cookie attributes such as `Path` or
`Expires` serialized even when the cookies carry them — and no `Cookie`
header is attached when no matching cookie exists. -/
theorem c4_cookie_header (reusesExpiredCookies : Bool) (now : Int) (url : String)
    (jar : List Cookie) (headers : List (String × String)) :
    (cookiesFor reusesExpiredCookies now url jar ≠ [] →
      findBy Prod.fst (requestHeaders reusesExpiredCookies now url jar headers) "Cookie" =
        some ("Cookie", serializeCookies (cookiesFor reusesExpiredCookies now url jar)))
    ∧ (cookiesFor reusesExpiredCookies now url jar = [] →
      requestHeaders reusesExpiredCookies now url jar headers = headers)
    ∧ serializeCookies
        [⟨"name1", "value1", "host", "/account", true, false, some 99999, none⟩,
         ⟨"name2", "value2", "host", "/", true, false, none, some 3600⟩] =
      "name1=value1; name2=value2" := by
  refine ⟨?_, ?_, by decide⟩
  · intro h
    unfold requestHeaders
    cases hcs : cookiesFor reusesExpiredCookies now url jar with
    | nil => exact absurd hcs h
    | cons c cs =>
      have := findBy_upsertBy_self Prod.fst headers
        ("Cookie", serializeCookies (c :: cs))
      exact this
  · intro h
    unfold requestHeaders
    rw [h]

/-- C4 witness: for a jar holding one session cookie scoped to the host of
the request URL, the attached `Cookie` header serializes it. -/
theorem c4_cookie_header_witness :
    findBy Prod.fst (requestHeaders false 0 "https://host/mypage" c4Jar []) "Cookie" =
      some ("Cookie", serializeCookies (cookiesFor false 0 "https://host/mypage" c4Jar)) :=
  (c4_cookie_header false 0 "https://host/mypage" c4Jar []).1 (by decide)

theorem minList?_eq_none_iff (l : List Int) : minList? l = none ↔ l = [] := by
  cases l with
  | nil => simp [minList?]
  | cons x xs => simp [minList?]

theorem minList?_le (l : List Int) (m : Int) (h : minList? l = some m) :
    ∀ x ∈ l, m ≤ x := by
  induction l generalizing m with
  | nil => cases h
  | cons x xs ih =>
    intro y hy
    rw [minList?] at h
    injection h with h
    rcases List.mem_cons.mp hy with rfl | hym
    · cases hxs : minList? xs with
      | none => rw [hxs] at h; exact h ▸ le_refl y
      | some k => rw [hxs] at h; exact h ▸ min_le_left y k
    · cases hxs : minList? xs with
      | none =>
        rw [(minList?_eq_none_iff xs).mp hxs] at hym
        cases hym
      | some k =>
        rw [hxs] at h
        exact le_trans (h ▸ min_le_right x k) (ih k hxs y hym)

theorem minList?_mem (l : List Int) (m : Int) (h : minList? l = some m) : m ∈ l := by
  induction l generalizing m with
  | nil => cases h
  | cons x xs ih =>
    rw [minList?] at h
    injection h with h
    cases hxs : minList? xs with
    | none => rw [hxs] at h; exact h ▸ List.mem_cons_self x xs
    | some k =>
      rw [hxs] at h
      rcases min_choice x k with hmin | hmin
      · exact (h.symm.trans hmin) ▸ List.mem_cons_self x xs
      · exact List.mem_cons_of_mem x ((h.symm.trans hmin) ▸ ih k hxs)

/-- C1: when a response carries at least one Set-Cookie value, the TTL of
the cache write equals `minimumRemainingTtl` over the stored jar: it never
exceeds the cap, is a lower bound of every stored cookie's remaining
lifetime (`expires` as seconds-from-now intersected with `maxAge` by
taking the smaller), is either the cap or one of those lifetimes, and is
the cap itself when no stored cookie carries an explicit lifetime. -/
theorem c1_persist_ttl (now cap : Int) (cacheKey : String) (jar news : List Cookie)
    (hnews : news ≠ []) :
    ∃ p, persistJar now cap cacheKey jar news = some p ∧
      p.ttl = minimumRemainingTtl now cap (foldSetCookies jar news) ∧
      p.ttl ≤ cap ∧
      (∀ c ∈ foldSetCookies jar news, ∀ l, remainingLife now c = some l → p.ttl ≤ l) ∧
      (p.ttl = cap ∨ ∃ c ∈ foldSetCookies jar news, remainingLife now c = some p.ttl) ∧
      ((∀ c ∈ foldSetCookies jar news, remainingLife now c = none) → p.ttl = cap) ∧
      (∀ c : Cookie, ∀ e mx : Int, c.expires = some e → c.maxAge = some mx →
        mx ≤ e - now → remainingLife now c = some mx) := by
  obtain ⟨n, ns, rfl⟩ : ∃ n ns, news = n :: ns := by
    cases news with
    | nil => exact absurd rfl hnews
    | cons n ns => exact ⟨n, ns, rfl⟩
  refine ⟨_, rfl, rfl, ?_, ?_, ?_, ?_, ?_⟩
  · unfold minimumRemainingTtl
    cases hm : minList? (cookieLifetimes now (foldSetCookies jar (n :: ns))) with
    | none => exact le_refl cap
    | some m => exact min_le_right m cap
  · intro c hc l hl
    have hmem : l ∈ cookieLifetimes now (foldSetCookies jar (n :: ns)) :=
      List.mem_filterMap.mpr ⟨c, hc, hl⟩
    unfold minimumRemainingTtl
    cases hm : minList? (cookieLifetimes now (foldSetCookies jar (n :: ns))) with
    | none =>
      rw [(minList?_eq_none_iff _).mp hm] at hmem
      cases hmem
    | some m =>
      exact le_trans (min_le_left m cap)
        (minList?_le (cookieLifetimes now (foldSetCookies jar (n :: ns))) m hm l hmem)
  · unfold minimumRemainingTtl
    cases hm : minList? (cookieLifetimes now (foldSetCookies jar (n :: ns))) with
    | none => exact Or.inl rfl
    | some m =>
      rcases le_total cap m with hcm | hmc
      · exact Or.inl (min_eq_right hcm)
      · obtain ⟨c, hc, hrl⟩ := List.mem_filterMap.mp
          (minList?_mem (cookieLifetimes now (foldSetCookies jar (n :: ns))) m hm)
        refine Or.inr ⟨c, hc, ?_⟩
        show remainingLife now c = some (min m cap)
        rw [min_eq_left hmc]
        exact hrl
  · intro hall
    have hnil : cookieLifetimes now (foldSetCookies jar (n :: ns)) = [] :=
      List.filterMap_eq_nil_iff.mpr hall
    unfold minimumRemainingTtl
    rw [hnil]
    rfl
  · intro c e mx he hmx hle
    unfold remainingLife
    rw [he, hmx]
    show some (min (e - now) mx) = some mx
    rw [min_eq_right hle]

/-- C1 witness: a response cookie with `Expires` 7200 seconds ahead and
`Max-Age` 3600 seconds yields a cache write with TTL 3600 — the smaller
Max-Age-derived lifetime, under the 21600 cap. -/
theorem c1_persist_ttl_witness :
    (persistJar 0 21600 "cookiesKey" [] c1News).map CachePut.ttl = some 3600 ∧
    ∃ p, persistJar 0 21600 "cookiesKey" [] c1News = some p ∧
      p.ttl = minimumRemainingTtl 0 21600 (foldSetCookies [] c1News) ∧
      p.ttl ≤ 21600 ∧
      (∀ c ∈ foldSetCookies [] c1News, ∀ l, remainingLife 0 c = some l → p.ttl ≤ l) ∧
      (p.ttl = 21600 ∨ ∃ c ∈ foldSetCookies [] c1News, remainingLife 0 c = some p.ttl) ∧
      ((∀ c ∈ foldSetCookies [] c1News, remainingLife 0 c = none) → p.ttl = 21600) ∧
      (∀ c : Cookie, ∀ e mx : Int, c.expires = some e → c.maxAge = some mx →
        mx ≤ e - 0 → remainingLife 0 c = some mx) :=
  ⟨by decide, c1_persist_ttl 0 21600 "cookiesKey" [] c1News (by decide)⟩

/-- C8 counterexample: the claim says the login flow raises an error if
and only if the login POST response carries no Set-Cookie header; but when
the header is carried with the empty string as its single value,
`headers['Set-Cookie']` is falsy, `saveCookies` returns `false`, and
`retrieveCookies` raises even though the header is present. -/
theorem c8_empty_string_counterexample :
    retrieveCookiesRaises (fun s => [(s, "")]) (fun _ => false) false 21600 "cookiesKey"
        (some (Sum.inl "")) = true ∧
    (some (Sum.inl "") : SetCookieHeader) ≠ none :=
  ⟨rfl, fun h => Option.noConfusion h⟩

/-- C8 (amended): `retrieveCookies` raises exactly when the login POST
response carries no Set-Cookie header or carries it as a single empty
string; whenever the header value is truthy, no error is raised and the
jar is updated to the parsed cookies (expiry-filtered unless
`storesExpiredCookies`) and persisted to the cache under the session key
with TTL `cacheExpiration`. -/
theorem c8_login_failure_iff (parse : String → CookieMap) (expiredAt : String → Bool)
    (storesExpiredCookies : Bool) (cacheExpiration : Int) (cookiesKey : String)
    (hdr : SetCookieHeader) :
    (retrieveCookiesRaises parse expiredAt storesExpiredCookies cacheExpiration
        cookiesKey hdr = true ↔
      hdr = none ∨ hdr = some (Sum.inl "")) ∧
    (setCookieTruthy hdr = true →
      ∃ kept,
        saveCookies parse expiredAt storesExpiredCookies cacheExpiration cookiesKey hdr =
          some (kept, cookiesKey, cacheExpiration) ∧
        (storesExpiredCookies = true → kept = (setCookieValues hdr).map parse) ∧
        (storesExpiredCookies = false →
          kept = ((setCookieValues hdr).map parse).filter
            (fun m => !cookieMapExpired expiredAt m))) := by
  constructor
  · cases hdr with
    | none => simp [retrieveCookiesRaises, saveCookies, setCookieTruthy]
    | some v =>
      cases v with
      | inl s =>
        by_cases hs : s = ""
        · subst hs
          simp [retrieveCookiesRaises, saveCookies, setCookieTruthy]
        · simp [retrieveCookiesRaises, saveCookies, setCookieTruthy, hs]
      | inr l => simp [retrieveCookiesRaises, saveCookies, setCookieTruthy]
  · intro ht
    refine ⟨if storesExpiredCookies then (setCookieValues hdr).map parse
        else ((setCookieValues hdr).map parse).filter
          (fun m => !cookieMapExpired expiredAt m), ?_, ?_, ?_⟩
    · simp [saveCookies, ht]
    · intro hst
      simp [hst]
    · intro hst
      simp [hst]

/-- C8 witness: a login POST response whose Set-Cookie header is an array
with one nonempty value raises nothing and yields the cache write. -/
theorem c8_login_failure_iff_witness :
    ¬ (retrieveCookiesRaises (fun s => [(s, "")]) (fun _ => false) false 21600 "cookiesKey"
        (some (Sum.inr ["sid=x"])) = true) ∧
    ∃ kept,
      saveCookies (fun s => [(s, "")]) (fun _ => false) false 21600 "cookiesKey"
          (some (Sum.inr ["sid=x"])) =
        some (kept, "cookiesKey", (21600 : Int)) ∧
      (false = true → kept = (setCookieValues (some (Sum.inr ["sid=x"]))).map
        (fun s => [(s, "")])) ∧
      (false = false →
        kept = ((setCookieValues (some (Sum.inr ["sid=x"]))).map (fun s => [(s, "")])).filter
          (fun m => !cookieMapExpired (fun _ => false) m)) :=
  ⟨fun h => by
      rcases ((c8_login_failure_iff (fun s => [(s, "")]) (fun _ => false) false 21600
          "cookiesKey" (some (Sum.inr ["sid=x"]))).1.mp h) with h' | h' <;>
        simp at h',
   (c8_login_failure_iff (fun s => [(s, "")]) (fun _ => false) false 21600 "cookiesKey"
      (some (Sum.inr ["sid=x"]))).2 rfl⟩
